import Mathlib

/-!
Shallow embedding of `src/playlist/playlistmanager.cpp` (class
`PlaylistManager`), the multi-collection coordinator of the repository.

The coordinator's own code is translated directly from the source file.
External collaborators that the source file only calls into (the per-playlist
`Playlist` object, the persistent `PlaylistBackend` store, the parser, Qt's
`QFileInfo` and `Utilities::WordyTime`) are not part of `src/`; the parts of
them the coordinator observes are modelled from the spec and marked
`Modelled from the spec:` in their doc comments.

Side effects (emitted signals, playlist mutations done through the playlist
handle, and calls into the persistent store) are recorded in order in an
effect trace carried by the state, so that claims about which notifications
are emitted, and in which order, can be stated.
-/

namespace PM

/-- Modelled from the spec: a catalog entity (a `Song`).  `sid` is the stable
catalog id used as the cross-reference key, `title` stands for the rest of
the cached metadata, `length` is the duration in seconds (non-positive
meaning unset), and `isLibraryS` records whether the entity comes from the
library catalog (such items are the catalog-backed ones). -/
structure Song where
  sid : Int
  title : String
  length : Int
  isLibraryS : Bool
  deriving DecidableEq, Repr

/-- Modelled from the spec: one item of a collection.  `isLibrary` says the
item is catalog-backed; `song` is the item's cached metadata record. -/
structure Item where
  isLibrary : Bool
  song : Song
  deriving DecidableEq, Repr

/-- Modelled from the spec: the state of one `Playlist` object as the
coordinator observes it.  `pid` is the id it was constructed with,
`currentIndex` is the currently-playing-row marker (`-1` = unset, the
constructor's initial value), `items` is the ordered item sequence. -/
structure PlaylistData where
  pid : Int
  currentIndex : Int
  items : List Item
  deriving DecidableEq, Repr

/-- `PlaylistManager::Data`: a playlist handle together with its display
name, the value type of the index. -/
structure Data where
  p : PlaylistData
  name : String
  deriving DecidableEq, Repr

/-- One recorded side effect: an emitted coordinator signal, a mutation done
through a playlist handle, or a call into the persistent store. -/
inductive Eff where
  | playlistAdded (id : Int) (name : String)
  | playlistRemoved (id : Int)
  | playlistRenamed (id : Int) (name : String)
  | currentChanged (id : Int)
  | activeChanged (id : Int)
  | summaryTextChanged (text : String)
  | error (msg : String)
  | setCurrentIndexE (id : Int) (idx : Int)
  | backendCreatePlaylist (name : String)
  | backendRemovePlaylist (id : Int)
  | backendRenamePlaylist (id : Int) (name : String)
  | backendSetPlaylistOrder (ids : List Int)
  deriving DecidableEq, Repr

/-- The coordinator state: the `QMap<int, Data> playlists_` index (kept as an
association list sorted by key, matching `QMap` iteration order), the two
cursors `current_` and `active_`, the pending selection snapshot
`current_selection_` (a list of `(top, bottom)` row ranges), and the recorded
effect trace. -/
structure ManagerState where
  playlists : List (Int × Data)
  current : Int
  active : Int
  currentSelection : List (Int × Int)
  effects : List Eff
  deriving DecidableEq, Repr

/-- Record one side effect. -/
def emit (s : ManagerState) (e : Eff) : ManagerState :=
  { s with effects := s.effects ++ [e] }

/-- `QMap::value(key).p` would be a null handle for a missing key; the
default entry stands for that (only ever read in well-formed states). -/
def defaultData : Data :=
  { p := { pid := -1, currentIndex := -1, items := [] }, name := "" }

/-- `QMap` lookup on the index. -/
def qlookup (m : List (Int × Data)) (k : Int) : Option Data :=
  match m with
  | [] => none
  | e :: t => if e.1 = k then some e.2 else qlookup t k

/-- `QMap::contains`. -/
def containsKey (m : List (Int × Data)) (k : Int) : Bool :=
  (qlookup m k).isSome

/-- `QMap::value` with the default-constructed fallback. -/
def lookupD (m : List (Int × Data)) (k : Int) : Data :=
  match qlookup m k with
  | some d => d
  | none => defaultData

/-- `playlists_[id] = v`: insert or replace, keeping the list sorted by key
(the `QMap` key order). -/
def qinsert (m : List (Int × Data)) (k : Int) (v : Data) : List (Int × Data) :=
  match m with
  | [] => [(k, v)]
  | e :: t =>
    if k < e.1 then (k, v) :: e :: t
    else if k = e.1 then (k, v) :: t
    else e :: qinsert t k v

/-- `QMap::take(id)`: remove the entry with the given key. -/
def qtake (m : List (Int × Data)) (k : Int) : List (Int × Data) :=
  match m with
  | [] => []
  | e :: t => if e.1 = k then t else e :: qtake t k

/-- Apply `f` to the entry stored under key `k` (a mutation done through the
playlist handle held in the index). -/
def mapAt (m : List (Int × Data)) (k : Int) (f : Data → Data) :
    List (Int × Data) :=
  m.map (fun e => if e.1 = k then (e.1, f e.2) else e)

/-- `Playlist::set_current_index(idx)` on the playlist stored under `k`. -/
def setPlaylistCurrentIndex (m : List (Int × Data)) (k : Int) (idx : Int) :
    List (Int × Data) :=
  mapAt m k (fun d => { d with p := { d.p with currentIndex := idx } })

/-- Modelled from the spec: `Collection.InsertItems` builds one item per
entity; the item is catalog-backed exactly when its entity is. -/
def mkItem (song : Song) : Item :=
  { isLibrary := song.isLibraryS, song := song }

/-- `Playlist::InsertSongs(songs)` on the playlist stored under `k`:
Modelled from the spec: `InsertItems` appends the items to the ordered
sequence. -/
def insertSongsAt (m : List (Int × Data)) (k : Int) (songs : List Song) :
    List (Int × Data) :=
  mapAt m k (fun d => { d with p := { d.p with items := d.p.items ++ songs.map mkItem } })

/-- Modelled from the spec: `Collection.TotalDuration()` — the current
collection's total duration over all rows, a non-positive row length
contributing zero. -/
def totalLength (pl : PlaylistData) : Nat :=
  pl.items.foldl (fun acc it => if 0 < it.song.length then acc + it.song.length.toNat else acc) 0

/-- The length field of row `i` of a playlist, as read through
`range.model()->index(i, Column_Length).data().toInt()`: an out-of-range row
yields an invalid index, whose data converts to `0`. -/
def rowLength (pl : PlaylistData) (i : Int) : Int :=
  if i < 0 then 0
  else match pl.items.get? i.toNat with
    | some it => it.song.length
    | none => 0

/-- The rows `top .. bottom` of a selection range, in order (empty when
`bottom < top`). -/
def intRange (a b : Int) : List Int :=
  (List.range (b + 1 - a).toNat).map (fun k => a + k)

/-- Modelled from the spec: zero-padding of the seconds part of the wordy
duration rendering. -/
def pad2 (n : Nat) : String :=
  if n < 10 then "0" ++ toString n else toString n

/-- Modelled from the spec: `Utilities::WordyTime(seconds)` renders a
duration the way the spec's examples show (185 s → "3:05", 105 s → "1:45"). -/
def wordyTime (seconds : Nat) : String :=
  toString (seconds / 60) ++ ":" ++ pad2 (seconds % 60)

/-- Modelled from the spec: `QFileInfo::baseName` — the file name up to the
first dot (the file's base name; directory components are not modelled). -/
def baseName (fn : String) : String :=
  ⟨fn.data.takeWhile (fun c => c ≠ '.')⟩

/-- Modelled from the spec: `QFileInfo::completeBaseName` — the file name up
to the last dot, or the whole name when it has no dot. -/
def completeBaseName (fn : String) : String :=
  if ('.') ∈ fn.data then ⟨((fn.data.reverse.dropWhile (fun c => c ≠ '.')).drop 1).reverse⟩
  else fn

/-- The selection sweep of `PlaylistManager::UpdateSummaryText`: one pass
over the snapshot's ranges accumulating `selected` (the range lengths) and
`seconds` (the positive row lengths of the rows inside the ranges). -/
def summaryAcc (pl : PlaylistData) (sel : List (Int × Int)) : Int × Nat :=
  sel.foldl
    (fun (acc : Int × Nat) r =>
      (acc.1 + (r.2 - r.1 + 1),
       (intRange r.1 r.2).foldl
         (fun secs i =>
           let length := rowLength pl i
           if 0 < length then secs + length.toNat else secs)
         acc.2))
    (0, 0)

/-- `PlaylistManager::UpdateSummaryText`: reads the current collection and
the pending selection snapshot, accumulates the selected row count and the
selected seconds (positive row lengths only) in one sweep over the ranges,
then renders and emits the summary text. -/
def UpdateSummaryText (s : ManagerState) : ManagerState :=
  let pl := (lookupD s.playlists s.current).p
  let tracks : Int := (pl.items.length : Int)
  let acc := summaryAcc pl s.currentSelection
  let selected := acc.1
  let pr :=
    if 1 < selected then (acc.2, toString selected ++ " selected of ")
    else (totalLength pl, "")
  let seconds := pr.1
  let summary := pr.2 ++ (if tracks = 1 then "1 track" else toString tracks ++ " tracks")
  let summary := if seconds ≠ 0 then summary ++ " - [ " ++ wordyTime seconds ++ " ]" else summary
  emit s (.summaryTextChanged summary)

/-- `PlaylistManager::SetCurrentPlaylist(id)` (precondition: the index
contains `id`): sets the current cursor, emits `CurrentChanged`, recomputes
the summary. -/
def SetCurrentPlaylist (s : ManagerState) (id : Int) : ManagerState :=
  UpdateSummaryText (emit { s with current := id } (.currentChanged id))

/-- `PlaylistManager::SetActivePlaylist(id)` (precondition: the index
contains `id`): first unsets the playing-row marker of the old active
playlist (only when one is set and differs from `id`), then sets the active
cursor and emits `ActiveChanged`. -/
def SetActivePlaylist (s : ManagerState) (id : Int) : ManagerState :=
  let s :=
    if s.active ≠ -1 ∧ s.active ≠ id then
      emit { s with playlists := setPlaylistCurrentIndex s.playlists s.active (-1) }
        (.setCurrentIndexE s.active (-1))
    else s
  emit { s with active := id } (.activeChanged id)

/-- `PlaylistManager::AddPlaylist(id, name)`: constructs a fresh playlist
bound to `id`, inserts it into the index, emits `PlaylistAdded`, and sets
either cursor to `id` when that cursor is still unset. -/
def AddPlaylist (s : ManagerState) (id : Int) (name : String) : ManagerState :=
  let ret : PlaylistData := { pid := id, currentIndex := -1, items := [] }
  let s := emit { s with playlists := qinsert s.playlists id { p := ret, name := name } }
    (.playlistAdded id name)
  let s := if s.current = -1 then SetCurrentPlaylist s id else s
  let s := if s.active = -1 then SetActivePlaylist s id else s
  s

/-- `PlaylistManager::New(name, songs)`: asks the store for a new id
(`allocId` is the store's reply; `-1` is the failure reply, on which the
source calls `qFatal` — modelled as `none`, the process terminates with no
resulting state); otherwise registers the playlist, inserts the songs and
makes it current. -/
def New (s : ManagerState) (name : String) (songs : List Song) (allocId : Int) :
    Option ManagerState :=
  let s := emit s (.backendCreatePlaylist name)
  if allocId = -1 then none
  else
    let s := AddPlaylist s allocId name
    let s := { s with playlists := insertSongsAt s.playlists allocId songs }
    some (SetCurrentPlaylist s allocId)

/-- `PlaylistManager::Load(filename)`: `songs` is the parser's reply for the
file.  An empty parse emits the error message built from the file's complete
base name and changes nothing else; otherwise the coordinator creates a new
playlist named after the file's base name. -/
def Load (s : ManagerState) (songs : List Song) (filename : String) (allocId : Int) :
    Option ManagerState :=
  if songs = [] then
    some (emit s (.error ("The playlist '" ++ completeBaseName filename
      ++ "' was empty or could not be loaded.")))
  else New s (baseName filename) songs allocId

/-- `PlaylistManager::Rename(id, new_name)` (precondition: the index
contains `id`): renames in the store, then in the index, then emits
`PlaylistRenamed`. -/
def Rename (s : ManagerState) (id : Int) (newName : String) : ManagerState :=
  let s := emit s (.backendRenamePlaylist id newName)
  let s := { s with playlists := mapAt s.playlists id (fun d => { d with name := newName }) }
  emit s (.playlistRenamed id newName)

/-- `PlaylistManager::Remove(id)` (precondition: the index contains `id`):
refuses to remove the last playlist; otherwise removes from the store, reads
`next_id` from the first index entry, re-points whichever cursors pointed at
`id` to `next_id`, takes the entry out of the index and emits
`PlaylistRemoved`. -/
def Remove (s : ManagerState) (id : Int) : ManagerState :=
  if s.playlists.length ≤ 1 then s
  else
    let s := emit s (.backendRemovePlaylist id)
    let next_id :=
      match s.playlists with
      | [] => -1
      | e :: _ => e.2.p.pid
    let s := if id = s.active then SetActivePlaylist s next_id else s
    let s := if id = s.current then SetCurrentPlaylist s next_id else s
    let s := { s with playlists := qtake s.playlists id }
    emit s (.playlistRemoved id)

/-- `PlaylistManager::ChangePlaylistOrder(ids)`: forwards the ordering to
the store. -/
def ChangePlaylistOrder (s : ManagerState) (ids : List Int) : ManagerState :=
  emit s (.backendSetPlaylistOrder ids)

/-- `PlaylistManager::SelectionChanged(selection)`: replaces the snapshot
wholesale and recomputes the summary. -/
def SelectionChanged (s : ManagerState) (ranges : List (Int × Int)) : ManagerState :=
  UpdateSummaryText { s with currentSelection := ranges }

/-- One `SetMetadata` sweep for one discovered song: every catalog-backed
item whose cached id matches gets the fresh record (the playlist's
entity-id lookup plus `LibraryPlaylistItem::SetMetadata`, modelled from the
spec). -/
def updateItem (song : Song) (it : Item) : Item :=
  if it.isLibrary ∧ it.song.sid = song.sid then { it with song := song } else it

/-- `PlaylistManager::SongsDiscovered(songs)`: for each discovered song, for
every playlist in the index, update every item of that playlist that
references the song's id. -/
def SongsDiscovered (s : ManagerState) (songs : List Song) : ManagerState :=
  { s with
    playlists := songs.foldl
      (fun pls song =>
        pls.map (fun e =>
          (e.1, { e.2 with p := { e.2.p with items := e.2.p.items.map (updateItem song) } })))
      s.playlists }

/-- The freshly constructed manager state (`current_ = -1`, `active_ = -1`,
empty index, nothing recorded). -/
def initialState : ManagerState :=
  { playlists := [], current := -1, active := -1, currentSelection := [], effects := [] }

/-- `PlaylistManager::Init`: registers every `(id, name)` pair the store
reports, and when the store reports none, creates the default playlist named
"Playlist" (with `allocId` the store's id reply for that creation). -/
def Init (backendPlaylists : List (Int × String)) (allocId : Int) :
    Option ManagerState :=
  let s := backendPlaylists.foldl (fun s pr => AddPlaylist s pr.1 pr.2) initialState
  if s.playlists = [] then New s ("Playlist") [] allocId
  else some s

/-! Spec-side definitions, written from the spec's own words, to be compared
with the embedded code. -/

/-- Spec: "for each range in the snapshot, accumulate
`selectedCount += range length`" — the sum of the range lengths. -/
def specSelectedCount (sel : List (Int × Int)) : Int :=
  (sel.map (fun r => r.2 - r.1 + 1)).sum

/-- The contribution of one row to the selected seconds: its length when
positive, else zero ("treat non-positive/unset length as zero"). -/
def posLen (pl : PlaylistData) (i : Int) : Nat :=
  if 0 < rowLength pl i then (rowLength pl i).toNat else 0

/-- Spec: "accumulate `selectedSeconds` only over rows with a positive
length" — the sum, over the snapshot's ranges, of the positive row lengths. -/
def specSelectedSeconds (pl : PlaylistData) (sel : List (Int × Int)) : Nat :=
  (sel.map (fun r => ((intRange r.1 r.2).map (posLen pl)).sum)).sum

/-- Spec: "if `selectedCount > 1`: summary duration = `selectedSeconds`;
else: summary duration = the current collection's total duration". -/
def specSummaryDuration (pl : PlaylistData) (sel : List (Int × Int)) : Nat :=
  if 1 < specSelectedCount sel then specSelectedSeconds pl sel else totalLength pl

/-- Spec: render as `[<selectedCount> selected of ]<T> track(s)[ - [
<wordy duration> ]]`; the "selected of" clause exactly when
`selectedCount > 1`, the duration clause exactly when the duration is
nonzero, "1 track" exactly when `T = 1`. -/
def specSummaryText (pl : PlaylistData) (sel : List (Int × Int)) : String :=
  (if 1 < specSelectedCount sel then toString (specSelectedCount sel) ++ " selected of " else "")
    ++ (if (pl.items.length : Int) = 1 then "1 track"
        else toString (pl.items.length : Int) ++ " tracks")
    ++ (if specSummaryDuration pl sel ≠ 0
        then " - [ " ++ wordyTime (specSummaryDuration pl sel) ++ " ]" else "")

/-- The cumulative effect of one discovery event on one item: every
discovered song is applied in event order. -/
def itemSync (songs : List Song) (it : Item) : Item :=
  songs.foldl (fun i song => updateItem song i) it

/-- The last song of the event whose id matches `sid`, the record the sweep
leaves on a matching item. -/
def lastMatch (songs : List Song) (sid : Int) : Option Song :=
  songs.foldl (fun acc d => if d.sid = sid then some d else acc) none

/-! Concrete sample data used by the witnesses and by the failing-input
evaluations. -/

/-- A sample catalog entity. -/
def sampleSong (i : Int) (t : String) (n : Int) (b : Bool) : Song :=
  { sid := i, title := t, length := n, isLibraryS := b }

/-- A sample index entry. -/
def sampleData (id : Int) (nm : String) (its : List Item) : Data :=
  { p := { pid := id, currentIndex := -1, items := its }, name := nm }

/-- A sample coordinator state holding the given index, with both cursors on
`cur`. -/
def sampleState (pls : List (Int × Data)) (cur : Int) : ManagerState :=
  { playlists := pls, current := cur, active := cur, currentSelection := [], effects := [] }

/-! General fold lemmas. -/

theorem foldl_add_eq_sum {α M : Type} [AddMonoid M] (h : α → M) :
    ∀ (l : List α) (b : M), l.foldl (fun acc x => acc + h x) b = b + (l.map h).sum := by
  intro l
  induction l with
  | nil => intro b; simp
  | cons x t ih => intro b; simp [ih, add_assoc]

theorem rangeSeconds_eq (pl : PlaylistData) :
    ∀ (l : List Int) (b : Nat),
      l.foldl
        (fun secs i =>
          let length := rowLength pl i
          if 0 < length then secs + length.toNat else secs) b
        = b + (l.map (posLen pl)).sum := by
  intro l
  induction l with
  | nil => intro b; simp
  | cons i t ih =>
    intro b
    by_cases h : 0 < rowLength pl i <;> simp [ih, posLen, h, Nat.add_assoc]

theorem summaryAcc_go (pl : PlaylistData) :
    ∀ (sel : List (Int × Int)) (a : Int) (b : Nat),
      sel.foldl
        (fun (acc : Int × Nat) r =>
          (acc.1 + (r.2 - r.1 + 1),
           (intRange r.1 r.2).foldl
             (fun secs i =>
               let length := rowLength pl i
               if 0 < length then secs + length.toNat else secs)
             acc.2))
        (a, b)
        = (a + specSelectedCount sel, b + specSelectedSeconds pl sel) := by
  intro sel
  induction sel with
  | nil => intro a b; simp [specSelectedCount, specSelectedSeconds]
  | cons r t ih =>
    intro a b
    simp only [List.foldl_cons]
    rw [ih, rangeSeconds_eq]
    simp [specSelectedCount, specSelectedSeconds, add_assoc]

theorem summaryAcc_eq (pl : PlaylistData) (sel : List (Int × Int)) :
    summaryAcc pl sel = (specSelectedCount sel, specSelectedSeconds pl sel) := by
  unfold summaryAcc
  rw [summaryAcc_go]
  simp

/-- C5: for every current collection and selection snapshot, the summary's
selected count is the sum of the range lengths, its selected seconds sum the
positive row lengths only, the rendered duration is the selected seconds
exactly when more than one row is selected and the collection's total
duration otherwise, and the emitted text carries the "selected of" clause
exactly when more than one row is selected, the duration clause exactly when
the duration is nonzero, and the singular "1 track" exactly when the row
count is one — the emitted text is precisely the spec's rendering. -/
theorem updateSummary_matches_spec (s : ManagerState) :
    UpdateSummaryText s =
      emit s (.summaryTextChanged
        (specSummaryText (lookupD s.playlists s.current).p s.currentSelection)) := by
  simp only [UpdateSummaryText, summaryAcc_eq, specSummaryText, specSummaryDuration]
  by_cases h1 : 1 < specSelectedCount s.currentSelection
  · by_cases h2 : specSelectedSeconds (lookupD s.playlists s.current).p s.currentSelection = 0 <;>
      simp [h1, h2, String.append_assoc, String.append_empty]
  · by_cases h2 : totalLength (lookupD s.playlists s.current).p = 0 <;>
      simp [h1, h2, String.append_assoc, String.append_empty]

/-- C1: the claimed cursor invariant is broken by the code: starting from
`Init` over a store holding playlists 1 and 2 (both cursors land on 1),
`Remove 1` reads `next_id` from the first index entry before removing it,
re-points both cursors to the removed id 1, and leaves a state whose cursors
are not keys of the index. -/
theorem remove_first_breaks_invariant :
    (Init [(1, "A"), (2, "B")] 0).map
      (fun s =>
        let t := Remove s 1
        (t.playlists.map (fun e => e.1), containsKey t.playlists t.current,
          containsKey t.playlists t.active))
      = some ([2], false, false) := by
  rfl

/-- C2: removing the active (and current) playlist 1 from the reachable
two-playlist state leaves both cursors equal to the removed id 1, which no
longer exists in the index — not a different, still-existing id. -/
theorem remove_active_cursor_keeps_removed_id :
    (Init [(1, "A"), (2, "B")] 0).map
      (fun s =>
        let t := Remove s 1
        (t.active, t.current, containsKey t.playlists 1))
      = some (1, 1, false) := by
  rfl

/-- C3: removing the sole remaining playlist is a silent no-op: the whole
state — index, cursors, selection, effect trace (so neither a store call nor
any notification) — is unchanged. -/
theorem remove_last_playlist_noop (s : ManagerState) (id : Int)
    (hmem : containsKey s.playlists id = true) (hlen : s.playlists.length = 1) :
    Remove s id = s := by
  unfold Remove
  rw [if_pos (by omega)]

theorem remove_last_playlist_noop_witness :
    Remove (sampleState [(1, sampleData 1 "A" [])] 1) 1
      = sampleState [(1, sampleData 1 "A" [])] 1 :=
  remove_last_playlist_noop (sampleState [(1, sampleData 1 "A" [])] 1) 1 (by decide) (by decide)

/-- C9: `ChangePlaylistOrder` forwards the full ordering to the store and
changes nothing in memory: index, cursors and selection snapshot are exactly
as before, and the only recorded effect is the store call — no coordinator
notification. -/
theorem changePlaylistOrder_frame (s : ManagerState) (ids : List Int) :
    (ChangePlaylistOrder s ids).playlists = s.playlists ∧
    (ChangePlaylistOrder s ids).current = s.current ∧
    (ChangePlaylistOrder s ids).active = s.active ∧
    (ChangePlaylistOrder s ids).currentSelection = s.currentSelection ∧
    (ChangePlaylistOrder s ids).effects = s.effects ++ [.backendSetPlaylistOrder ids] :=
  ⟨rfl, rfl, rfl, rfl, rfl⟩

theorem qlookup_mapAt_self (m : List (Int × Data)) (k : Int) (f : Data → Data) :
    qlookup (mapAt m k f) k = (qlookup m k).map f := by
  induction m with
  | nil => rfl
  | cons e t ih =>
    by_cases h : e.1 = k <;> simp [mapAt, qlookup, h] <;> simpa [mapAt] using ih

theorem lookupD_setIdx (m : List (Int × Data)) (k : Int) (idx : Int)
    (hmem : containsKey m k = true) :
    (lookupD (setPlaylistCurrentIndex m k idx) k).p.currentIndex = idx := by
  unfold setPlaylistCurrentIndex lookupD
  rw [qlookup_mapAt_self]
  unfold containsKey at hmem
  cases h : qlookup m k with
  | none => rw [h] at hmem; simp at hmem
  | some d => simp

/-- C4: `SetActivePlaylist(id)` with a set previous active cursor different
from `id` clears the previously active playlist's playing-row marker — the
marker of the old cursor's playlist, read before the cursor moves — and does
so before the `ActiveChanged` notification, as the recorded effect order
shows; afterwards the old playlist's marker is unset. -/
theorem setActive_clears_previous_marker (s : ManagerState) (id : Int)
    (h1 : s.active ≠ -1) (h2 : s.active ≠ id)
    (hmem : containsKey s.playlists s.active = true) :
    SetActivePlaylist s id =
      { s with playlists := setPlaylistCurrentIndex s.playlists s.active (-1),
               active := id,
               effects := s.effects ++ [.setCurrentIndexE s.active (-1), .activeChanged id] } ∧
    (lookupD (SetActivePlaylist s id).playlists s.active).p.currentIndex = -1 := by
  have heq : SetActivePlaylist s id =
      { s with playlists := setPlaylistCurrentIndex s.playlists s.active (-1),
               active := id,
               effects := s.effects ++ [.setCurrentIndexE s.active (-1), .activeChanged id] } := by
    simp only [SetActivePlaylist]
    rw [if_pos ⟨h1, h2⟩]
    simp [emit]
  refine ⟨heq, ?_⟩
  rw [heq]
  exact lookupD_setIdx s.playlists s.active (-1) hmem

theorem setActive_clears_previous_marker_witness :
    SetActivePlaylist (sampleState [(1, sampleData 1 "A" []), (2, sampleData 2 "B" [])] 1) 2 =
      { sampleState [(1, sampleData 1 "A" []), (2, sampleData 2 "B" [])] 1 with
        playlists := setPlaylistCurrentIndex
          (sampleState [(1, sampleData 1 "A" []), (2, sampleData 2 "B" [])] 1).playlists 1 (-1),
        active := 2,
        effects := (sampleState [(1, sampleData 1 "A" []), (2, sampleData 2 "B" [])] 1).effects
          ++ [.setCurrentIndexE 1 (-1), .activeChanged 2] } ∧
    (lookupD (SetActivePlaylist
        (sampleState [(1, sampleData 1 "A" []), (2, sampleData 2 "B" [])] 1) 2).playlists
      1).p.currentIndex = -1 :=
  setActive_clears_previous_marker
    (sampleState [(1, sampleData 1 "A" []), (2, sampleData 2 "B" [])] 1) 2
    (by decide) (by decide) (by decide)

/-- C10: `SetActivePlaylist(id)` when `id` is already the active cursor does
not touch any playlist (in particular the playing-row marker stays as it
was), still sets the active cursor and still emits `ActiveChanged`. -/
theorem setActive_same_id_no_clear (s : ManagerState) (id : Int)
    (hmem : containsKey s.playlists id = true) (hact : s.active = id) :
    SetActivePlaylist s id =
      { s with active := id, effects := s.effects ++ [.activeChanged id] } := by
  simp only [SetActivePlaylist]
  rw [if_neg (by simp [hact])]
  rfl

theorem setActive_same_id_no_clear_witness :
    SetActivePlaylist (sampleState [(2, sampleData 2 "B" [])] 2) 2 =
      { sampleState [(2, sampleData 2 "B" [])] 2 with
        active := 2,
        effects := (sampleState [(2, sampleData 2 "B" [])] 2).effects ++ [.activeChanged 2] } :=
  setActive_same_id_no_clear (sampleState [(2, sampleData 2 "B" [])] 2) 2 (by decide) rfl

/-! Lemmas about the base-name functions, for the load error message. -/

theorem takeWhile_stop (p : Char → Bool) :
    ∀ (xs : List Char) (y : Char) (ys : List Char), p y = false →
      (xs ++ y :: ys).takeWhile p = xs.takeWhile p := by
  intro xs
  induction xs with
  | nil => intro y ys h; simp [List.takeWhile_cons, h]
  | cons x t ih =>
    intro y ys h
    by_cases hx : p x <;> simp [List.takeWhile_cons, hx, ih _ _ h]

theorem dropWhile_dot :
    ∀ l : List Char, ('.') ∈ l →
      ∃ t, l.dropWhile (fun c => c ≠ '.') = '.' :: t := by
  intro l
  induction l with
  | nil => intro h; simp at h
  | cons c t ih =>
    intro h
    by_cases hc : c = '.'
    · subst hc
      exact ⟨t, by simp [List.dropWhile_cons]⟩
    · have hm : ('.') ∈ t := by
        rcases List.mem_cons.mp h with h1 | h1
        · exact absurd h1.symm hc
        · exact h1
      obtain ⟨t', ht⟩ := ih hm
      have ht' : List.dropWhile (fun c => !decide (c = '.')) t = '.' :: t' := by
        simpa using ht
      exact ⟨t', by simp [List.dropWhile_cons, hc, ht']⟩

theorem baseName_sub_complete (fn : String) :
    ∃ r, (completeBaseName fn).data = (baseName fn).data ++ r := by
  unfold completeBaseName baseName
  by_cases h : ('.') ∈ fn.data
  · rw [if_pos h]
    obtain ⟨t, ht⟩ := dropWhile_dot fn.data.reverse (by simpa using h)
    have hsplit : fn.data.reverse.takeWhile (fun c => c ≠ '.') ++ ('.' :: t)
        = fn.data.reverse := by
      rw [← ht]
      exact List.takeWhile_append_dropWhile _ _
    have hfn : fn.data
        = t.reverse ++ '.' :: (fn.data.reverse.takeWhile (fun c => c ≠ '.')).reverse := by
      conv_lhs => rw [← List.reverse_reverse fn.data, ← hsplit]
      simp [List.reverse_append]
    have htw : fn.data.takeWhile (fun c => c ≠ '.')
        = t.reverse.takeWhile (fun c => c ≠ '.') := by
      conv_lhs => rw [hfn]
      exact takeWhile_stop _ _ _ _ (by simp)
    refine ⟨t.reverse.dropWhile (fun c => c ≠ '.'), ?_⟩
    show (List.drop 1 (List.dropWhile (fun c => c ≠ '.') fn.data.reverse)).reverse
        = fn.data.takeWhile (fun c => c ≠ '.') ++ t.reverse.dropWhile (fun c => c ≠ '.')
    rw [ht, htw]
    simpa using (List.takeWhile_append_dropWhile (fun c => c ≠ '.') t.reverse).symm
  · rw [if_neg h]
    exact ⟨fn.data.dropWhile (fun c => c ≠ '.'),
      (List.takeWhile_append_dropWhile _ _).symm⟩

/-- C6: a file whose parse yields no entity makes `Load` emit an error
notification whose message contains the file's base name, while the whole
coordinator state except the recorded error stays as it was (in particular
no collection is created and the index is unchanged); a non-empty parse
makes `Load` call `New` (Create) with the file's base name and the parsed
entities. -/
theorem load_empty_error_or_create (s : ManagerState) (songs : List Song)
    (filename : String) (allocId : Int) :
    (songs = [] →
      Load s songs filename allocId =
        some (emit s (.error ("The playlist '" ++ completeBaseName filename
          ++ "' was empty or could not be loaded."))) ∧
      ∃ u v, ("The playlist '" ++ completeBaseName filename
          ++ "' was empty or could not be loaded.").data
        = u ++ (baseName filename).data ++ v) ∧
    (songs ≠ [] →
      Load s songs filename allocId = New s (baseName filename) songs allocId) := by
  constructor
  · intro h
    subst h
    refine ⟨by simp [Load], ?_⟩
    obtain ⟨r, hr⟩ := baseName_sub_complete filename
    refine ⟨("The playlist '").data,
      r ++ ("' was empty or could not be loaded.").data, ?_⟩
    simp [String.data_append, hr, List.append_assoc]
  · intro h
    simp [Load, h]

theorem load_empty_error_or_create_witness :
    Load (sampleState [(3, sampleData 3 "C" [])] 3) [] ("mix.tape.m3u") 9 =
      some (emit (sampleState [(3, sampleData 3 "C" [])] 3)
        (.error ("The playlist '" ++ completeBaseName ("mix.tape.m3u")
          ++ "' was empty or could not be loaded."))) ∧
    ∃ u v, ("The playlist '" ++ completeBaseName ("mix.tape.m3u")
        ++ "' was empty or could not be loaded.").data
      = u ++ (baseName ("mix.tape.m3u")).data ++ v :=
  (load_empty_error_or_create (sampleState [(3, sampleData 3 "C" [])] 3) []
    ("mix.tape.m3u") 9).1 rfl

/-! Lemmas about the index operations, for the creation path. -/

theorem qlookup_qinsert (m : List (Int × Data)) (k : Int) (v : Data) :
    qlookup (qinsert m k v) k = some v := by
  induction m with
  | nil => simp [qinsert, qlookup]
  | cons e t ih =>
    by_cases h1 : k < e.1
    · simp [qinsert, h1, qlookup]
    · by_cases h2 : k = e.1
      · simp [qinsert, h1, h2, qlookup]
      · have h3 : ¬e.1 = k := fun hh => h2 hh.symm
        simp [qinsert, h1, h2, qlookup, h3, ih]

theorem setCurrent_playlists (s : ManagerState) (id : Int) :
    (SetCurrentPlaylist s id).playlists = s.playlists := rfl

theorem setCurrent_current (s : ManagerState) (id : Int) :
    (SetCurrentPlaylist s id).current = id := rfl

theorem addPlaylist_playlists (s : ManagerState) (id : Int) (name : String) :
    (AddPlaylist s id name).playlists
      = qinsert s.playlists id
          { p := { pid := id, currentIndex := -1, items := [] }, name := name } := by
  have key : ∀ u : ManagerState,
      (if u.active = -1 then SetActivePlaylist u id else u).playlists = u.playlists := by
    intro u
    by_cases h : u.active = -1 <;> simp [h, SetActivePlaylist, emit]
  have key2 : ∀ u : ManagerState,
      (if u.current = -1 then SetCurrentPlaylist u id else u).playlists = u.playlists := by
    intro u
    by_cases h : u.current = -1 <;> simp [h, setCurrent_playlists]
  simp only [AddPlaylist]
  rw [key, key2]
  rfl

/-- C8: `New` (Create) first asks the store for an id; the failure reply is
fatal — the process terminates and no state results, so no partial
registration is observable.  On success the new collection is registered in
the index under the allocated id with the requested name, the initial songs
are inserted into it, and the current cursor is set to the new id. -/
theorem new_fatal_or_registers (s : ManagerState) (name : String)
    (songs : List Song) (allocId : Int) :
    (allocId = -1 → New s name songs allocId = none) ∧
    (allocId ≠ -1 → ∃ s', New s name songs allocId = some s' ∧
      qlookup s'.playlists allocId =
        some { p := { pid := allocId, currentIndex := -1, items := songs.map mkItem },
               name := name } ∧
      s'.current = allocId) := by
  constructor
  · intro h
    simp [New, h]
  · intro h
    refine ⟨SetCurrentPlaylist
      { AddPlaylist (emit s (.backendCreatePlaylist name)) allocId name with
        playlists := insertSongsAt
          (AddPlaylist (emit s (.backendCreatePlaylist name)) allocId name).playlists
          allocId songs } allocId, ?_, ?_, ?_⟩
    · simp [New, h]
    · rw [setCurrent_playlists]
      show qlookup (insertSongsAt
        (AddPlaylist (emit s (.backendCreatePlaylist name)) allocId name).playlists
        allocId songs) allocId = _
      rw [addPlaylist_playlists]
      unfold insertSongsAt
      rw [qlookup_mapAt_self, qlookup_qinsert]
      simp
    · rfl

theorem new_fatal_or_registers_witness :
    ∃ s', New (sampleState [(1, sampleData 1 "A" [])] 1) ("N")
        [sampleSong 4 "t" 10 true] 5 = some s' ∧
      qlookup s'.playlists 5 =
        some { p := { pid := 5, currentIndex := -1,
                      items := [sampleSong 4 "t" 10 true].map mkItem },
               name := "N" } ∧
      s'.current = 5 :=
  (new_fatal_or_registers (sampleState [(1, sampleData 1 "A" [])] 1) ("N")
    [sampleSong 4 "t" 10 true] 5).2 (by decide)

/-! Lemmas about the catalog synchronization sweep. -/

theorem itemSync_not_library (songs : List Song) :
    ∀ it : Item, it.isLibrary = false → itemSync songs it = it := by
  induction songs with
  | nil => intro it _; rfl
  | cons d t ih =>
    intro it h
    show itemSync t (updateItem d it) = it
    rw [show updateItem d it = it from by simp [updateItem, h]]
    exact ih it h

theorem lastMatch_go (sid : Int) :
    ∀ (songs : List Song) (a : Option Song),
      songs.foldl (fun acc d => if d.sid = sid then some d else acc) a
        = match lastMatch songs sid with
          | some y => some y
          | none => a := by
  intro songs
  induction songs with
  | nil => intro a; rfl
  | cons d t ih =>
    intro a
    show t.foldl _ (if d.sid = sid then some d else a) = _
    rw [ih]
    have hR : lastMatch (d :: t) sid
        = match lastMatch t sid with
          | some y => some y
          | none => if d.sid = sid then some d else none := by
      show t.foldl _ (if d.sid = sid then some d else none) = _
      rw [ih]
    rw [hR]
    cases h2 : lastMatch t sid with
    | some y => rfl
    | none => by_cases hd : d.sid = sid <;> simp [hd]

theorem lastMatch_sid :
    ∀ (songs : List Song) (sid : Int) (d : Song),
      lastMatch songs sid = some d → d.sid = sid := by
  intro songs
  induction songs with
  | nil => intro sid d h; exact absurd h (by simp [lastMatch])
  | cons x t ih =>
    intro sid d h
    have hx : lastMatch (x :: t) sid
        = match lastMatch t sid with
          | some y => some y
          | none => if x.sid = sid then some x else none := by
      show t.foldl _ (if x.sid = sid then some x else none) = _
      rw [lastMatch_go sid t]
    rw [hx] at h
    cases h2 : lastMatch t sid with
    | some y =>
      rw [h2] at h
      simp only [Option.some.injEq] at h
      exact h ▸ ih sid y h2
    | none =>
      rw [h2] at h
      by_cases hx2 : x.sid = sid
      · rw [if_pos hx2] at h
        simp only [Option.some.injEq] at h
        exact h ▸ hx2
      · rw [if_neg hx2] at h
        exact absurd h (by simp)

theorem itemSync_library (songs : List Song) :
    ∀ it : Item, it.isLibrary = true →
      itemSync songs it
        = match lastMatch songs it.song.sid with
          | some d => { it with song := d }
          | none => it := by
  induction songs with
  | nil => intro it _; rfl
  | cons d t ih =>
    intro it h
    show itemSync t (updateItem d it) = _
    have hlm : lastMatch (d :: t) it.song.sid
        = match lastMatch t it.song.sid with
          | some y => some y
          | none => if d.sid = it.song.sid then some d else none := by
      show t.foldl _ (if d.sid = it.song.sid then some d else none) = _
      rw [lastMatch_go it.song.sid t]
    rw [hlm]
    by_cases hd : it.song.sid = d.sid
    · have hu : updateItem d it = { it with song := d } := by
        simp [updateItem, h, hd]
      rw [hu, ih { it with song := d } h]
      show (match lastMatch t d.sid with
            | some y => { it with song := y }
            | none => { it with song := d }) = _
      rw [show d.sid = it.song.sid from hd.symm]
      cases h2 : lastMatch t it.song.sid with
      | some y => rfl
      | none => simp
    · have hu : updateItem d it = it := by
        simp [updateItem, hd]
      rw [hu, ih it h]
      cases h2 : lastMatch t it.song.sid with
      | some y => rfl
      | none => rw [if_neg (fun hh => hd hh.symm)]

theorem itemSync_idem (songs : List Song) (it : Item) :
    itemSync songs (itemSync songs it) = itemSync songs it := by
  by_cases h : it.isLibrary = true
  · have hchar := itemSync_library songs it h
    cases h2 : lastMatch songs it.song.sid with
    | none =>
      rw [hchar, h2]
      rw [hchar, h2]
    | some d =>
      rw [hchar, h2]
      show itemSync songs { it with song := d } = _
      rw [itemSync_library songs { it with song := d } h]
      show (match lastMatch songs d.sid with
            | some y => { it with song := y }
            | none => { it with song := d }) = _
      rw [lastMatch_sid songs it.song.sid d h2, h2]
  · have hf : it.isLibrary = false := by simpa using h
    rw [itemSync_not_library songs it hf, itemSync_not_library songs it hf]

theorem foldl_map_swap {α β : Type} (F : β → α → α) :
    ∀ (l : List β) (xs : List α),
      l.foldl (fun ys b => ys.map (fun a => F b a)) xs
        = xs.map (fun a => l.foldl (fun a b => F b a) a) := by
  intro l
  induction l with
  | nil => intro xs; simp
  | cons b t ih =>
    intro xs
    simp only [List.foldl_cons]
    rw [ih, List.map_map]
    rfl

theorem entry_fold (songs : List Song) :
    ∀ e : Int × Data,
      songs.foldl
        (fun e song =>
          (e.1, { e.2 with p := { e.2.p with items := e.2.p.items.map (updateItem song) } }))
        e
        = (e.1, { e.2 with p := { e.2.p with
            items := songs.foldl (fun its song => its.map (updateItem song)) e.2.p.items } }) := by
  induction songs with
  | nil => intro e; rfl
  | cons d t ih =>
    intro e
    show t.foldl _
      (e.1, { e.2 with p := { e.2.p with items := e.2.p.items.map (updateItem d) } }) = _
    rw [ih]
    rfl

theorem songsDiscovered_playlists (s : ManagerState) (songs : List Song) :
    (SongsDiscovered s songs).playlists
      = s.playlists.map (fun e =>
          (e.1, { e.2 with p := { e.2.p with items := e.2.p.items.map (itemSync songs) } })) := by
  calc (SongsDiscovered s songs).playlists
      = s.playlists.map (fun e => songs.foldl
          (fun e song =>
            (e.1, { e.2 with p := { e.2.p with items := e.2.p.items.map (updateItem song) } }))
          e) :=
        foldl_map_swap
          (fun (song : Song) (e : Int × Data) =>
            (e.1, { e.2 with p := { e.2.p with items := e.2.p.items.map (updateItem song) } }))
          songs s.playlists
    _ = s.playlists.map (fun e =>
          (e.1, { e.2 with p := { e.2.p with items := e.2.p.items.map (itemSync songs) } })) := by
        refine congrArg (fun f => List.map f s.playlists) (funext fun e => ?_)
        rw [entry_fold]
        rw [show songs.foldl (fun its song => its.map (updateItem song)) e.2.p.items
            = e.2.p.items.map (itemSync songs) from
          foldl_map_swap (fun (song : Song) (a : Item) => updateItem song a) songs e.2.p.items]

theorem songsDiscovered_eq (s : ManagerState) (songs : List Song) :
    SongsDiscovered s songs
      = { s with playlists := s.playlists.map (fun e =>
          (e.1, { e.2 with p := { e.2.p with items := e.2.p.items.map (itemSync songs) } })) } :=
  congrArg (fun pls => { s with playlists := pls }) (songsDiscovered_playlists s songs)

theorem songsDiscovered_idem (s : ManagerState) (songs : List Song) :
    SongsDiscovered (SongsDiscovered s songs) songs = SongsDiscovered s songs := by
  rw [songsDiscovered_eq s songs]
  rw [songsDiscovered_eq { s with playlists := _ } songs]
  refine congrArg (fun pls => { s with playlists := pls }) ?_
  show (s.playlists.map _).map _ = _
  rw [List.map_map]
  refine congrArg (fun f => List.map f s.playlists) (funext fun e => ?_)
  show (e.1, { e.2 with p := { e.2.p with
      items := (e.2.p.items.map (itemSync songs)).map (itemSync songs) } }) = _
  rw [List.map_map]
  rw [show (itemSync songs ∘ itemSync songs) = itemSync songs from
    funext fun it => itemSync_idem songs it]

/-- C7: one catalog discovery event rewrites, in every collection of the
index, every catalog-backed item whose cached id matches a discovered
entity, to carry the (last) discovered record with that id, leaves every
other item and all remaining coordinator state alone, and the whole sweep is
idempotent: applying the same event twice equals applying it once. -/
theorem songsDiscovered_sync (s : ManagerState) (songs : List Song) :
    (SongsDiscovered s songs).playlists
      = s.playlists.map (fun e =>
          (e.1, { e.2 with p := { e.2.p with items := e.2.p.items.map (itemSync songs) } })) ∧
    (SongsDiscovered s songs).current = s.current ∧
    (SongsDiscovered s songs).active = s.active ∧
    (SongsDiscovered s songs).effects = s.effects ∧
    (∀ it : Item, it.isLibrary = true → ∀ d : Song,
      lastMatch songs it.song.sid = some d → itemSync songs it = { it with song := d }) ∧
    (∀ it : Item, it.isLibrary = true →
      lastMatch songs it.song.sid = none → itemSync songs it = it) ∧
    (∀ it : Item, it.isLibrary = false → itemSync songs it = it) ∧
    SongsDiscovered (SongsDiscovered s songs) songs = SongsDiscovered s songs := by
  refine ⟨songsDiscovered_playlists s songs, rfl, rfl, rfl, ?_, ?_, ?_, songsDiscovered_idem s songs⟩
  · intro it h d hd
    rw [itemSync_library songs it h, hd]
  · intro it h hd
    rw [itemSync_library songs it h, hd]
  · intro it h
    exact itemSync_not_library songs it h

theorem songsDiscovered_sync_witness :
    itemSync [sampleSong 7 "new" 100 true] (mkItem (sampleSong 7 "old" 50 true))
      = { mkItem (sampleSong 7 "old" 50 true) with song := sampleSong 7 "new" 100 true } ∧
    SongsDiscovered
        (SongsDiscovered
          (sampleState [(1, sampleData 1 "A" [mkItem (sampleSong 7 "old" 50 true)])] 1)
          [sampleSong 7 "new" 100 true])
        [sampleSong 7 "new" 100 true]
      = SongsDiscovered
          (sampleState [(1, sampleData 1 "A" [mkItem (sampleSong 7 "old" 50 true)])] 1)
          [sampleSong 7 "new" 100 true] :=
  ⟨(songsDiscovered_sync
      (sampleState [(1, sampleData 1 "A" [mkItem (sampleSong 7 "old" 50 true)])] 1)
      [sampleSong 7 "new" 100 true]).2.2.2.2.1
    (mkItem (sampleSong 7 "old" 50 true)) rfl (sampleSong 7 "new" 100 true) rfl,
   (songsDiscovered_sync
      (sampleState [(1, sampleData 1 "A" [mkItem (sampleSong 7 "old" 50 true)])] 1)
      [sampleSong 7 "new" 100 true]).2.2.2.2.2.2.2⟩

end PM
